import Mathlib

/-!
Shallow embedding of the CountryGame repository (akhilasananth/CountryGame).

The embedded code is `src/countrygame/game.py` together with the constants in
`src/countrygame/constants.py`:

* `GameState` models the mutable fields of `CountryChainGame`
  (`all_countries`, `unseen_countries`, `invalid_countries`).  The
  `unseen_countries` defaultdict is modelled as a total function from keys to
  finite sets; a key that was never written maps to the empty set, exactly the
  observable behaviour of `defaultdict(set)`.
* Console input is modelled by passing the list of raw strings that `input()`
  would return, and returning the unconsumed suffix.  Console output
  (`print`) is a display-sink effect with no influence on state or results
  and is not modelled.
* `random.choice(seq)` picks `seq[i]` for some index `i < len(seq)`; it is
  modelled by an explicit `rand : Nat` parameter used as `rand % len`.
* Python exceptions (`ValueError`, `KeyError` from `set.remove`,
  `FileNotFoundError`) and blocking on exhausted input are modelled with
  `Except GameError`.
-/

namespace CountryGame

/-- Enumeration `PlayerStatus` from `constants.py`. -/
inductive PlayerStatus where
  | WIN
  | LOSE
  | CONTINUE
  | RETRY
  | QUIT
  | RESTART
  deriving DecidableEq, Repr

/-- Dataclass `MoveResult(status, last_letter)` from `constants.py`;
`last_letter : str | None` becomes `Option String`. -/
structure MoveResult where
  status : PlayerStatus
  last_letter : Option String
  deriving DecidableEq, Repr

/-- Python-level failures of the embedded code: `FileNotFoundError`,
`ValueError`, `KeyError` (raised by `set.remove` on a non-member),
exhaustion of the modelled input stream, and the `TypeError` that
`len(None)` would raise. -/
inductive GameError where
  | fileNotFound (path : String)
  | valueError (msg : String)
  | keyError
  | eof
  | typeError
  deriving DecidableEq, Repr

/-- Constant `FORBIDDEN_SEPARATORS = {",", "|", ";", "\t"}` from
`constants.py` (a set of one-character strings, modelled as characters). -/
def FORBIDDEN_SEPARATORS : List Char := [',', '|', ';', '\t']

/-- Characters `str.strip()` removes: ASCII whitespace. -/
def pyIsSpace (c : Char) : Bool :=
  c = ' ' ∨ c = '\t' ∨ c = '\n' ∨ c = '\x0d' ∨ c = '\x0b' ∨ c = '\x0c'

/-- Python `s.strip()`: drop whitespace from both ends.  (Defined over the
character list so that the kernel can evaluate it on literals.) -/
def pyStrip (s : String) : String :=
  ⟨(((s.data.dropWhile pyIsSpace).reverse.dropWhile pyIsSpace).reverse)⟩

/-- Python `s.lower()`: lowercase each character. -/
def pyLower (s : String) : String :=
  ⟨s.data.map Char.toLower⟩

/-- Python `s[0]` as a one-character string (the source only evaluates it on
non-empty strings). -/
def pyFirst (s : String) : String :=
  ⟨s.data.take 1⟩

/-- Python `s[-1]` as a one-character string (the source only evaluates it
on non-empty strings). -/
def pyLast (s : String) : String :=
  ⟨s.data.drop (s.data.length - 1)⟩

/-- Python `sep in s` for a one-character `sep`. -/
def pyContainsChar (s : String) (sep : Char) : Bool :=
  s.data.contains sep

/-- Constant `MAX_INVALID_INPUTS = 3` from `constants.py`. -/
def MAX_INVALID_INPUTS : Nat := 3

/-- Mutable state of a `CountryChainGame` instance. -/
structure GameState where
  all_countries : Finset String
  unseen_countries : String → Finset String
  invalid_countries : Finset String

/-- Pointwise update of one bucket of the `unseen_countries` mapping
(a dict item assignment). -/
def updateBucket (u : String → Finset String) (k : String)
    (t : Finset String) : String → Finset String :=
  fun x => if x = k then t else u x

/-- Method `_get_input_country`: trim the line, drop it if empty, record it in
`invalid_countries` and drop it if it contains a forbidden separator,
otherwise return it lowercased.  The returned pair is (new value of
`self.invalid_countries`, optional valid country). -/
def get_input_country (invalid : Finset String) (line : String) :
    Finset String × Option String :=
  let country := pyStrip line
  if country = "" then (invalid, none)
  else if FORBIDDEN_SEPARATORS.any (fun sep => pyContainsChar country sep) then
    (insert country invalid, none)
  else (invalid, some (pyLower country))

/-- State of a freshly constructed instance before `_load_all_countries`
runs: empty set, empty defaultdict, empty set. -/
def initState : GameState :=
  { all_countries := ∅
    unseen_countries := fun _ => ∅
    invalid_countries := ∅ }

/-- One `self.unseen_countries[country[0]].add(country)` step. -/
def addUnseen (u : String → Finset String) (country : String) :
    String → Finset String :=
  updateBucket u (pyFirst country) (insert country (u (pyFirst country)))

/-- Body of the `for line in f` loop of `_load_all_countries`. -/
def loadStep (s : GameState) (line : String) : GameState :=
  match get_input_country s.invalid_countries line with
  | (inv, none) => { s with invalid_countries := inv }
  | (inv, some country) =>
      { all_countries := insert country s.all_countries
        unseen_countries := addUnseen s.unseen_countries country
        invalid_countries := inv }

/-- Method `_load_all_countries`, applied to the lines the file yields. -/
def load_all_countries (lines : List String) : GameState :=
  lines.foldl loadStep initState

/-- Constructor `CountryChainGame.__init__`: a missing file raises
`FileNotFoundError` (modelled by `source = none`); an empty
`all_countries` after loading raises `ValueError`. -/
def mkCountryChainGame (source : Option (List String)) :
    Except GameError GameState :=
  match source with
  | none => .error (.fileNotFound "countries file")
  | some lines =>
      let s := load_all_countries lines
      if s.all_countries = ∅ then
        .error (.valueError "No valid countries found in the file.")
      else .ok s

/-- Method `_is_valid_country`. -/
def is_valid_country (s : GameState) (country : String) : Bool :=
  decide (country ∈ s.all_countries)

/-- Enumeration of a Python set as a list (`list(s)` or `for x in s`):
iteration order is unspecified in the source, so any fixed enumeration of
the same elements models it. -/
def setToList (t : Finset String) : List String :=
  t.sort (fun a b => a ≤ b)

/-- Buckets built by `for country in countries: buckets[country[0]].add(country)`
starting from a fresh `defaultdict(set)`. -/
def buildBuckets (countries : List String) : String → Finset String :=
  countries.foldl addUnseen (fun _ => ∅)

/-- Method `_reset_all`: rebuild `unseen_countries` from `all_countries`
(the iteration order over the set is irrelevant because buckets are sets). -/
def reset_all (s : GameState) : GameState :=
  { s with unseen_countries := buildBuckets (setToList s.all_countries) }

/-- Python `set.remove`: removes a member, raises `KeyError` on a
non-member. -/
def setRemove (t : Finset String) (c : String) :
    Except GameError (Finset String) :=
  if c ∈ t then .ok (t.erase c) else .error .keyError

/-- One `self.unseen_countries[key].remove(c)` statement. -/
def removeFromBucket (s : GameState) (key c : String) :
    Except GameError GameState :=
  match setRemove (s.unseen_countries key) c with
  | .error e => .error e
  | .ok t => .ok { s with unseen_countries := updateBucket s.unseen_countries key t }

/-- The state produced by a successful removal: one name erased from one
bucket, everything else untouched. -/
def consume (s : GameState) (letter name : String) : GameState :=
  { s with unseen_countries := updateBucket s.unseen_countries letter ((s.unseen_countries letter).erase name) }

/-- A sequence of `consume` operations (the only mutations a game performs
between resets). -/
def consumeSeq (s : GameState) (ops : List (String × String)) : GameState :=
  ops.foldl (fun t op => consume t op.1 op.2) s

/-- The `while attempts_left > 0` loop of `_get_player_move`.  The fuel is
the live value of `attempts_left`; each iteration takes the next raw string
the `input()` call would return.  Falling out of the loop (fuel `0`) returns
`MoveResult(LOSE, None)` (the "max invalid attempts reached" exit).  Running
out of modelled input while the loop still wants a prompt is `GameError.eof`. -/
def player_loop (s : GameState) (last_letter : String) :
    Nat → List String → Except GameError (MoveResult × GameState × List String)
  | 0, inputs => .ok (⟨.LOSE, none⟩, s, inputs)
  | _ + 1, [] => .error .eof
  | attempts_left + 1, raw :: rest =>
    let player_input := pyLower (pyStrip raw)
    if player_input = "quit" then
      .ok (⟨.QUIT, none⟩, s, rest)
    else if player_input = "restart" then
      .ok (⟨.RESTART, none⟩, reset_all s, rest)
    else if player_input = "" then
      player_loop s last_letter attempts_left rest
    else if player_input ∉ s.all_countries then
      player_loop s last_letter attempts_left rest
    else if last_letter ≠ "" ∧ pyFirst player_input ≠ last_letter then
      .ok (⟨.LOSE, none⟩, s, rest)
    else if player_input ∉ s.unseen_countries (pyFirst player_input) then
      .ok (⟨.LOSE, none⟩, s, rest)
    else
      match removeFromBucket s (pyFirst player_input) player_input with
      | .error e => .error e
      | .ok s1 => .ok (⟨.CONTINUE, some (pyLast player_input)⟩, s1, rest)

/-- Method `_get_player_move(last_letter, attempts_left)`: the length guard
(`ValueError`), the empty-bucket early LOSE, then the prompting loop. -/
def get_player_move (s : GameState) (last_letter : String)
    (attempts_left : Nat) (inputs : List String) :
    Except GameError (MoveResult × GameState × List String) :=
  if last_letter.length > 1 then
    .error (.valueError "The last character cannot be more than 1 character long")
  else if last_letter ≠ "" ∧ s.unseen_countries last_letter = ∅ then
    .ok (⟨.LOSE, none⟩, s, inputs)
  else
    player_loop s last_letter attempts_left inputs

/-- Method `_get_computer_move(last_player_letter)`.  The argument is
`str | None` in the source; Python truthiness makes both `None` and `""`
take the RETRY branch.  `rand` models the index drawn by `random.choice`. -/
def get_computer_move (rand : Nat) (s : GameState)
    (last_player_letter : Option String) :
    Except GameError (MoveResult × GameState) :=
  match last_player_letter with
  | none => .ok (⟨.RETRY, none⟩, s)
  | some letter =>
    if letter = "" then .ok (⟨.RETRY, none⟩, s)
    else
      let available_countries := setToList (s.unseen_countries letter)
      if available_countries = [] then .ok (⟨.WIN, none⟩, s)
      else
        let computer_choice :=
          available_countries.getD (rand % available_countries.length) ""
        match removeFromBucket s letter computer_choice with
        | .error e => .error e
        | .ok s1 =>
            .ok (⟨.CONTINUE, some (pyLower (pyLast computer_choice))⟩, s1)

/-- Method `_reset_game_state`: the `(last_letter, attempts_left)` seed the
driver uses at game start and after a restart. -/
def reset_game_state : String × Nat := ("", MAX_INVALID_INPUTS)

/-- The `while True` driver loop of `play`, with explicit fuel (`none` when
the fuel runs out with the loop still going).  On a player RESTART the seed
is taken from `reset_game_state`; QUIT/LOSE from the player and WIN/LOSE
from the computer break the loop; a computer CONTINUE feeds its trailing
letter to the next player prompt.  A computer result that carries no letter
yet does not break the loop would make the next `len(last_letter)` raise
(`TypeError`). -/
def play_loop : Nat → GameState → String → Nat → List String → List Nat →
    Except GameError (Option (PlayerStatus × GameState))
  | 0, _, _, _, _, _ => .ok none
  | fuel + 1, s, last_letter, attempts_left, inputs, rands =>
    match get_player_move s last_letter attempts_left inputs with
    | .error e => .error e
    | .ok (player_result, s1, inputs1) =>
      if player_result.status = .RESTART then
        play_loop fuel s1 reset_game_state.1 reset_game_state.2 inputs1 rands
      else if player_result.status = .QUIT ∨ player_result.status = .LOSE then
        .ok (some (player_result.status, s1))
      else
        match get_computer_move (rands.headD 0) s1 player_result.last_letter with
        | .error e => .error e
        | .ok (computer_result, s2) =>
          if computer_result.status = .WIN ∨ computer_result.status = .LOSE then
            .ok (some (computer_result.status, s2))
          else
            match computer_result.last_letter with
            | some l => play_loop fuel s2 l attempts_left inputs1 rands.tail
            | none => .error .typeError

/-! Helper lemmas about the embedded operations. -/

/-- Inputs the prompting loop merely counts against the shared attempts
budget: not a reserved token, and either empty after normalization or not a
member of `all_countries`. -/
def invalidInput (s : GameState) (raw : String) : Prop :=
  pyLower (pyStrip raw) ≠ "quit" ∧ pyLower (pyStrip raw) ≠ "restart" ∧
    (pyLower (pyStrip raw) = "" ∨ pyLower (pyStrip raw) ∉ s.all_countries)

theorem removeFromBucket_mem (s : GameState) (key c : String)
    (h : c ∈ s.unseen_countries key) :
    removeFromBucket s key c = .ok (consume s key c) := by
  simp [removeFromBucket, setRemove, h, consume]

theorem player_loop_zero (s : GameState) (L : String) (inputs : List String) :
    player_loop s L 0 inputs = .ok (⟨.LOSE, none⟩, s, inputs) := rfl

theorem player_loop_quit (s : GameState) (L raw : String) (a : Nat)
    (rest : List String) (h : pyLower (pyStrip raw) = "quit") :
    player_loop s L (a + 1) (raw :: rest) = .ok (⟨.QUIT, none⟩, s, rest) := by
  simp [player_loop, h]

theorem player_loop_restart (s : GameState) (L raw : String) (a : Nat)
    (rest : List String) (h : pyLower (pyStrip raw) = "restart") :
    player_loop s L (a + 1) (raw :: rest) = .ok (⟨.RESTART, none⟩, reset_all s, rest) := by
  simp [player_loop, h]

theorem player_loop_skip (s : GameState) (L raw : String) (a : Nat)
    (rest : List String) (h : invalidInput s raw) :
    player_loop s L (a + 1) (raw :: rest) = player_loop s L a rest := by
  obtain ⟨hq, hr, hbad⟩ := h
  by_cases he : pyLower (pyStrip raw) = ""
  · simp [player_loop, hq, hr, he]
  · have hmem : pyLower (pyStrip raw) ∉ s.all_countries := hbad.resolve_left he
    simp [player_loop, hq, hr, he, hmem]

theorem player_loop_valid (s : GameState) (L raw : String) (a : Nat)
    (rest : List String)
    (hq : pyLower (pyStrip raw) ≠ "quit")
    (hr : pyLower (pyStrip raw) ≠ "restart")
    (he : pyLower (pyStrip raw) ≠ "")
    (hmem : pyLower (pyStrip raw) ∈ s.all_countries)
    (hletter : L = "" ∨ pyFirst (pyLower (pyStrip raw)) = L)
    (hunseen : pyLower (pyStrip raw) ∈ s.unseen_countries (pyFirst (pyLower (pyStrip raw)))) :
    player_loop s L (a + 1) (raw :: rest)
      = .ok (⟨.CONTINUE, some (pyLast (pyLower (pyStrip raw)))⟩,
          consume s (pyFirst (pyLower (pyStrip raw))) (pyLower (pyStrip raw)), rest) := by
  have hL : ¬ (L ≠ "" ∧ pyFirst (pyLower (pyStrip raw)) ≠ L) := by
    rcases hletter with h | h
    · exact fun hc => hc.1 h
    · exact fun hc => hc.2 h
  simp [player_loop, hq, hr, he, hmem, hL, hunseen,
    removeFromBucket_mem s _ _ hunseen]

theorem get_player_move_eq_loop (s : GameState) (L : String) (a : Nat)
    (inputs : List String) (hL : L.length ≤ 1)
    (hbucket : L = "" ∨ s.unseen_countries L ≠ ∅) :
    get_player_move s L a inputs = player_loop s L a inputs := by
  unfold get_player_move
  rw [if_neg (by omega), if_neg]
  rintro ⟨h1, h2⟩
  rcases hbucket with h | h
  · exact h1 h
  · exact h h2

theorem player_loop_invalid_streak (s : GameState) (L : String) (a : Nat)
    (bads rest : List String) (h : ∀ raw ∈ bads, invalidInput s raw) :
    player_loop s L (a + bads.length) (bads ++ rest) = player_loop s L a rest := by
  induction bads with
  | nil => rfl
  | cons b bs ih =>
      have hb : invalidInput s b := h b (List.mem_cons_self b bs)
      have hbs : ∀ raw ∈ bs, invalidInput s raw :=
        fun raw hr => h raw (List.mem_cons_of_mem b hr)
      show player_loop s L (a + bs.length + 1) (b :: (bs ++ rest)) = _
      rw [player_loop_skip s L b (a + bs.length) (bs ++ rest) hb, ih hbs]

theorem mem_setToList {t : Finset String} {c : String} :
    c ∈ setToList t ↔ c ∈ t :=
  Finset.mem_sort _

theorem setToList_eq_nil {t : Finset String} :
    setToList t = [] ↔ t = ∅ := by
  constructor
  · intro h
    refine Finset.eq_empty_iff_forall_not_mem.2 fun c hc => ?_
    have := mem_setToList.2 hc
    simp [h] at this
  · intro h
    subst h
    simp [setToList]

/-- Every `.ok` outcome of the prompting loop leaves the state untouched,
resets it, or consumes one member of one bucket. -/
theorem player_loop_ok_state (s : GameState) (L : String) :
    ∀ (a : Nat) (inputs : List String) (r : MoveResult) (s1 : GameState)
      (rem : List String), player_loop s L a inputs = .ok (r, s1, rem) →
      s1 = s ∨ s1 = reset_all s ∨
        ∃ k c, c ∈ s.unseen_countries k ∧ s1 = consume s k c := by
  intro a
  induction a with
  | zero =>
      intro inputs r s1 rem h
      rw [player_loop_zero] at h
      simp only [Except.ok.injEq, Prod.mk.injEq] at h
      exact Or.inl h.2.1.symm
  | succ a ih =>
      intro inputs r s1 rem h
      match inputs with
      | [] => simp [player_loop] at h
      | raw :: rest =>
        by_cases hq : pyLower (pyStrip raw) = "quit"
        · rw [player_loop_quit s L raw a rest hq] at h
          simp only [Except.ok.injEq, Prod.mk.injEq] at h
          exact Or.inl h.2.1.symm
        by_cases hr : pyLower (pyStrip raw) = "restart"
        · rw [player_loop_restart s L raw a rest hr] at h
          simp only [Except.ok.injEq, Prod.mk.injEq] at h
          exact Or.inr (Or.inl h.2.1.symm)
        by_cases he : pyLower (pyStrip raw) = ""
        · have hstep := player_loop_skip s L raw a rest ⟨hq, hr, Or.inl he⟩
          rw [hstep] at h
          exact ih rest r s1 rem h
        by_cases hmem : pyLower (pyStrip raw) ∈ s.all_countries
        · by_cases hw : L ≠ "" ∧ pyFirst (pyLower (pyStrip raw)) ≠ L
          · have : player_loop s L (a + 1) (raw :: rest) = .ok (⟨.LOSE, none⟩, s, rest) := by
              simp [player_loop, hq, hr, he, hmem, hw]
            rw [this] at h
            simp only [Except.ok.injEq, Prod.mk.injEq] at h
            exact Or.inl h.2.1.symm
          by_cases hu : pyLower (pyStrip raw) ∈
              s.unseen_countries (pyFirst (pyLower (pyStrip raw)))
          · have hL : L = "" ∨ pyFirst (pyLower (pyStrip raw)) = L := by
              by_cases hL0 : L = ""
              · exact Or.inl hL0
              · exact Or.inr (by_contra fun hc => hw ⟨hL0, hc⟩)
            rw [player_loop_valid s L raw a rest hq hr he hmem hL hu] at h
            simp only [Except.ok.injEq, Prod.mk.injEq] at h
            exact Or.inr (Or.inr ⟨_, _, hu, h.2.1.symm⟩)
          · have : player_loop s L (a + 1) (raw :: rest) = .ok (⟨.LOSE, none⟩, s, rest) := by
              simp [player_loop, hq, hr, he, hmem, hw, hu]
            rw [this] at h
            simp only [Except.ok.injEq, Prod.mk.injEq] at h
            exact Or.inl h.2.1.symm
        · have hstep := player_loop_skip s L raw a rest ⟨hq, hr, Or.inr hmem⟩
          rw [hstep] at h
          exact ih rest r s1 rem h

/-- The only error the prompting loop can produce is exhaustion of the
modelled input stream. -/
theorem player_loop_error (s : GameState) (L : String) :
    ∀ (a : Nat) (inputs : List String) (e : GameError),
      player_loop s L a inputs = .error e → e = .eof := by
  intro a
  induction a with
  | zero =>
      intro inputs e h
      rw [player_loop_zero] at h
      exact absurd h (by simp)
  | succ a ih =>
      intro inputs e h
      match inputs with
      | [] =>
          simp only [player_loop, Except.error.injEq] at h
          exact h.symm
      | raw :: rest =>
        by_cases hq : pyLower (pyStrip raw) = "quit"
        · rw [player_loop_quit s L raw a rest hq] at h
          exact absurd h (by simp)
        by_cases hr : pyLower (pyStrip raw) = "restart"
        · rw [player_loop_restart s L raw a rest hr] at h
          exact absurd h (by simp)
        by_cases he : pyLower (pyStrip raw) = ""
        · rw [player_loop_skip s L raw a rest ⟨hq, hr, Or.inl he⟩] at h
          exact ih rest e h
        by_cases hmem : pyLower (pyStrip raw) ∈ s.all_countries
        · by_cases hw : L ≠ "" ∧ pyFirst (pyLower (pyStrip raw)) ≠ L
          · have : player_loop s L (a + 1) (raw :: rest) = .ok (⟨.LOSE, none⟩, s, rest) := by
              simp [player_loop, hq, hr, he, hmem, hw]
            rw [this] at h
            exact absurd h (by simp)
          by_cases hu : pyLower (pyStrip raw) ∈
              s.unseen_countries (pyFirst (pyLower (pyStrip raw)))
          · have hL : L = "" ∨ pyFirst (pyLower (pyStrip raw)) = L := by
              by_cases hL0 : L = ""
              · exact Or.inl hL0
              · exact Or.inr (by_contra fun hc => hw ⟨hL0, hc⟩)
            rw [player_loop_valid s L raw a rest hq hr he hmem hL hu] at h
            exact absurd h (by simp)
          · have : player_loop s L (a + 1) (raw :: rest) = .ok (⟨.LOSE, none⟩, s, rest) := by
              simp [player_loop, hq, hr, he, hmem, hw, hu]
            rw [this] at h
            exact absurd h (by simp)
        · rw [player_loop_skip s L raw a rest ⟨hq, hr, Or.inr hmem⟩] at h
          exact ih rest e h

theorem get_computer_move_absent (rand : Nat) (s : GameState) :
    get_computer_move rand s none = .ok (⟨.RETRY, none⟩, s) := rfl

theorem get_computer_move_empty_letter (rand : Nat) (s : GameState) :
    get_computer_move rand s (some "") = .ok (⟨.RETRY, none⟩, s) := by
  simp [get_computer_move]

theorem get_computer_move_win (rand : Nat) (s : GameState) (l : String)
    (h1 : l ≠ "") (h2 : s.unseen_countries l = ∅) :
    get_computer_move rand s (some l) = .ok (⟨.WIN, none⟩, s) := by
  simp [get_computer_move, h1, setToList_eq_nil.2 h2]

theorem get_computer_move_pick (rand : Nat) (s : GameState) (l : String)
    (h1 : l ≠ "") (h2 : s.unseen_countries l ≠ ∅) :
    ∃ c ∈ s.unseen_countries l,
      get_computer_move rand s (some l)
        = .ok (⟨.CONTINUE, some (pyLower (pyLast c))⟩, consume s l c) := by
  have hne : setToList (s.unseen_countries l) ≠ [] :=
    fun h => h2 (setToList_eq_nil.1 h)
  have hlen : 0 < (setToList (s.unseen_countries l)).length :=
    List.length_pos.2 hne
  have hidx : rand % (setToList (s.unseen_countries l)).length
      < (setToList (s.unseen_countries l)).length := Nat.mod_lt _ hlen
  have hgetD : (setToList (s.unseen_countries l)).getD
      (rand % (setToList (s.unseen_countries l)).length) ""
      = (setToList (s.unseen_countries l))[rand % (setToList (s.unseen_countries l)).length] := by
    rw [List.getD_eq_getElem?_getD, List.getElem?_eq_getElem hidx, Option.getD_some]
  have hmem : (setToList (s.unseen_countries l))[rand % (setToList (s.unseen_countries l)).length]
      ∈ s.unseen_countries l :=
    mem_setToList.1 (List.getElem_mem hidx)
  refine ⟨_, hmem, ?_⟩
  simp only [get_computer_move, h1, if_neg h1, if_neg hne, hgetD,
    removeFromBucket_mem s l _ hmem]
  simp

theorem get_computer_move_ok_state (rand : Nat) (s : GameState)
    (letter : Option String) (r : MoveResult) (s1 : GameState)
    (h : get_computer_move rand s letter = .ok (r, s1)) :
    s1 = s ∨ ∃ k c, c ∈ s.unseen_countries k ∧ s1 = consume s k c := by
  match letter with
  | none =>
      rw [get_computer_move_absent] at h
      simp only [Except.ok.injEq, Prod.mk.injEq] at h
      exact Or.inl h.2.symm
  | some l =>
      by_cases h1 : l = ""
      · subst h1
        rw [get_computer_move_empty_letter] at h
        simp only [Except.ok.injEq, Prod.mk.injEq] at h
        exact Or.inl h.2.symm
      by_cases h2 : s.unseen_countries l = ∅
      · rw [get_computer_move_win rand s l h1 h2] at h
        simp only [Except.ok.injEq, Prod.mk.injEq] at h
        exact Or.inl h.2.symm
      · obtain ⟨c, hc, heq⟩ := get_computer_move_pick rand s l h1 h2
        rw [heq] at h
        simp only [Except.ok.injEq, Prod.mk.injEq] at h
        exact Or.inr ⟨l, c, hc, h.2.symm⟩

theorem get_computer_move_no_error (rand : Nat) (s : GameState)
    (letter : Option String) (e : GameError) :
    get_computer_move rand s letter ≠ .error e := by
  match letter with
  | none => rw [get_computer_move_absent]; simp
  | some l =>
      by_cases h1 : l = ""
      · subst h1
        rw [get_computer_move_empty_letter]
        simp
      by_cases h2 : s.unseen_countries l = ∅
      · rw [get_computer_move_win rand s l h1 h2]
        simp
      · obtain ⟨c, hc, heq⟩ := get_computer_move_pick rand s l h1 h2
        rw [heq]
        simp

theorem mem_addUnseen (u : String → Finset String) (b L c : String) :
    c ∈ addUnseen u b L ↔ c ∈ u L ∨ (c = b ∧ pyFirst b = L) := by
  show c ∈ (if L = pyFirst b then insert b (u (pyFirst b)) else u L) ↔ _
  by_cases hL : L = pyFirst b
  · rw [if_pos hL, Finset.mem_insert, ← hL]
    constructor
    · rintro (hb | hu)
      · exact Or.inr ⟨hb, rfl⟩
      · exact Or.inl hu
    · rintro (hu | ⟨hb, _⟩)
      · exact Or.inr hu
      · exact Or.inl hb
  · rw [if_neg hL]
    constructor
    · exact Or.inl
    · rintro (hu | ⟨_, hf⟩)
      · exact hu
      · exact absurd hf.symm hL

theorem mem_foldl_addUnseen (l : List String) :
    ∀ (u : String → Finset String) (L c : String),
      c ∈ (l.foldl addUnseen u) L ↔ c ∈ u L ∨ (c ∈ l ∧ pyFirst c = L) := by
  induction l with
  | nil => intro u L c; simp
  | cons b bs ih =>
      intro u L c
      rw [List.foldl_cons, ih, mem_addUnseen]
      simp only [List.mem_cons]
      constructor
      · rintro ((h | ⟨hcb, hfb⟩) | ⟨hbs, hf⟩)
        · exact Or.inl h
        · exact Or.inr ⟨Or.inl hcb, by rw [hcb]; exact hfb⟩
        · exact Or.inr ⟨Or.inr hbs, hf⟩
      · rintro (h | ⟨hcb | hbs, hf⟩)
        · exact Or.inl (Or.inl h)
        · exact Or.inl (Or.inr ⟨hcb, by rw [← hcb]; exact hf⟩)
        · exact Or.inr ⟨hbs, hf⟩

theorem mem_buildBuckets (countries : List String) (L c : String) :
    c ∈ buildBuckets countries L ↔ c ∈ countries ∧ pyFirst c = L := by
  unfold buildBuckets
  rw [mem_foldl_addUnseen]
  simp

theorem reset_all_bucket (s : GameState) (L : String) :
    (reset_all s).unseen_countries L
      = s.all_countries.filter (fun c => pyFirst c = L) := by
  ext c
  show c ∈ buildBuckets (setToList s.all_countries) L ↔ _
  rw [mem_buildBuckets, Finset.mem_filter, mem_setToList]

/-- Invariant of the unseen partition: every bucketed name is a known
country filed under its first letter. -/
def BucketsInv (s : GameState) : Prop :=
  ∀ L c, c ∈ s.unseen_countries L → c ∈ s.all_countries ∧ pyFirst c = L

theorem bucketsInv_initState : BucketsInv initState :=
  fun _ c h => absurd h (by simp [initState])

theorem bucketsInv_reset_all (s : GameState) : BucketsInv (reset_all s) := by
  intro L c h
  rw [reset_all_bucket] at h
  have := Finset.mem_filter.1 h
  exact ⟨this.1, this.2⟩

theorem bucketsInv_consume (s : GameState) (k c0 : String)
    (h : BucketsInv s) : BucketsInv (consume s k c0) := by
  intro L c hc
  by_cases hL : L = k
  · have hc' : c ∈ (s.unseen_countries k).erase c0 := by
      simpa [consume, updateBucket, hL] using hc
    have := h k c (Finset.mem_of_mem_erase hc')
    exact ⟨this.1, by rw [hL]; exact this.2⟩
  · have hc' : c ∈ s.unseen_countries L := by
      simpa [consume, updateBucket, hL] using hc
    exact h L c hc'

theorem bucketsInv_loadStep (s : GameState) (line : String)
    (h : BucketsInv s) : BucketsInv (loadStep s line) := by
  unfold loadStep
  cases hgi : get_input_country s.invalid_countries line with
  | mk inv o =>
    cases o with
    | none => exact fun L c hc => h L c hc
    | some country =>
        intro L c hc
        have hc' : c ∈ addUnseen s.unseen_countries country L := hc
        show c ∈ insert country s.all_countries ∧ pyFirst c = L
        rcases (mem_addUnseen _ _ _ _).1 hc' with hcu | ⟨hcb, hfb⟩
        · have := h L c hcu
          exact ⟨Finset.mem_insert_of_mem this.1, this.2⟩
        · subst hcb
          exact ⟨Finset.mem_insert_self _ _, hfb⟩

theorem bucketsInv_foldl (lines : List String) :
    ∀ s, BucketsInv s → BucketsInv (lines.foldl loadStep s) := by
  induction lines with
  | nil => exact fun s h => h
  | cons line rest ih =>
      exact fun s h => ih _ (bucketsInv_loadStep s line h)

theorem bucketsInv_load (lines : List String) :
    BucketsInv (load_all_countries lines) :=
  bucketsInv_foldl lines initState bucketsInv_initState

theorem get_player_move_ok_state (s : GameState) (L : String) (a : Nat)
    (inputs : List String) (r : MoveResult) (s1 : GameState)
    (rem : List String) (h : get_player_move s L a inputs = .ok (r, s1, rem)) :
    s1 = s ∨ s1 = reset_all s ∨
      ∃ k c, c ∈ s.unseen_countries k ∧ s1 = consume s k c := by
  unfold get_player_move at h
  by_cases h1 : L.length > 1
  · rw [if_pos h1] at h
    exact absurd h (by simp)
  rw [if_neg h1] at h
  by_cases h2 : L ≠ "" ∧ s.unseen_countries L = ∅
  · rw [if_pos h2] at h
    simp only [Except.ok.injEq, Prod.mk.injEq] at h
    exact Or.inl h.2.1.symm
  · rw [if_neg h2] at h
    exact player_loop_ok_state s L a inputs r s1 rem h

theorem get_player_move_error (s : GameState) (L : String) (a : Nat)
    (inputs : List String) (e : GameError)
    (h : get_player_move s L a inputs = .error e) :
    e = .valueError "The last character cannot be more than 1 character long"
      ∨ e = .eof := by
  unfold get_player_move at h
  by_cases h1 : L.length > 1
  · rw [if_pos h1] at h
    simp only [Except.error.injEq] at h
    exact Or.inl h.symm
  rw [if_neg h1] at h
  by_cases h2 : L ≠ "" ∧ s.unseen_countries L = ∅
  · rw [if_pos h2] at h
    exact absurd h (by simp)
  · rw [if_neg h2] at h
    exact Or.inr (player_loop_error s L a inputs e h)

theorem bucketsInv_player (s : GameState) (L : String) (a : Nat)
    (inputs : List String) (r : MoveResult) (s1 : GameState)
    (rem : List String) (hs : BucketsInv s)
    (h : get_player_move s L a inputs = .ok (r, s1, rem)) : BucketsInv s1 := by
  rcases get_player_move_ok_state s L a inputs r s1 rem h with
    h1 | h1 | ⟨k, c, _, h1⟩
  · rw [h1]; exact hs
  · rw [h1]; exact bucketsInv_reset_all s
  · rw [h1]; exact bucketsInv_consume s k c hs

theorem bucketsInv_computer (rand : Nat) (s : GameState)
    (letter : Option String) (r : MoveResult) (s1 : GameState)
    (hs : BucketsInv s) (h : get_computer_move rand s letter = .ok (r, s1)) :
    BucketsInv s1 := by
  rcases get_computer_move_ok_state rand s letter r s1 h with h1 | ⟨k, c, _, h1⟩
  · rw [h1]; exact hs
  · rw [h1]; exact bucketsInv_consume s k c hs

/-- The valid country a single raw line contributes, if any (the returned
component of `_get_input_country`, which does not depend on the current
`invalid_countries` accumulator). -/
def lineCountry (line : String) : Option String :=
  (get_input_country ∅ line).2

theorem get_input_country_snd (invalid : Finset String) (line : String) :
    (get_input_country invalid line).2 = lineCountry line := by
  unfold lineCountry get_input_country
  by_cases h1 : pyStrip line = ""
  · simp [h1]
  by_cases h2 : (FORBIDDEN_SEPARATORS.any fun sep => pyContainsChar (pyStrip line) sep) = true
  · simp [h1, h2]
  · simp [h1, h2]

theorem lineCountry_empty (line : String) (h : pyStrip line = "") :
    lineCountry line = none := by
  simp [lineCountry, get_input_country, h]

theorem lineCountry_sep (line : String) (h1 : pyStrip line ≠ "")
    (h2 : (FORBIDDEN_SEPARATORS.any fun sep => pyContainsChar (pyStrip line) sep) = true) :
    lineCountry line = none := by
  simp [lineCountry, get_input_country, h1, h2]

theorem lineCountry_valid (line : String) (h1 : pyStrip line ≠ "")
    (h2 : ¬ (FORBIDDEN_SEPARATORS.any fun sep => pyContainsChar (pyStrip line) sep) = true) :
    lineCountry line = some (pyLower (pyStrip line)) := by
  simp [lineCountry, get_input_country, h1, h2]

theorem lineCountry_eq_none_iff (line : String) :
    lineCountry line = none ↔ pyStrip line = "" ∨
      ∃ sep ∈ FORBIDDEN_SEPARATORS, pyContainsChar (pyStrip line) sep = true := by
  by_cases h1 : pyStrip line = ""
  · simp [lineCountry_empty line h1, h1]
  by_cases h2 : (FORBIDDEN_SEPARATORS.any fun sep => pyContainsChar (pyStrip line) sep) = true
  · rw [lineCountry_sep line h1 h2]
    simp only [true_iff]
    exact Or.inr (List.any_eq_true.1 h2)
  · rw [lineCountry_valid line h1 h2]
    simp only [Option.some_ne_none, false_iff]
    rintro (h | hsep)
    · exact h1 h
    · exact h2 (List.any_eq_true.2 hsep)

theorem loadStep_all_none (s : GameState) (line : String)
    (h : lineCountry line = none) :
    (loadStep s line).all_countries = s.all_countries := by
  unfold loadStep
  cases hgi : get_input_country s.invalid_countries line with
  | mk inv o =>
    have ho : o = lineCountry line := by
      rw [← get_input_country_snd s.invalid_countries line, hgi]
    rw [h] at ho
    subst ho
    rfl

theorem loadStep_all_some (s : GameState) (line c : String)
    (h : lineCountry line = some c) :
    (loadStep s line).all_countries = insert c s.all_countries := by
  unfold loadStep
  cases hgi : get_input_country s.invalid_countries line with
  | mk inv o =>
    have ho : o = lineCountry line := by
      rw [← get_input_country_snd s.invalid_countries line, hgi]
    rw [h] at ho
    subst ho
    rfl

theorem mem_foldl_loadStep (lines : List String) :
    ∀ (s0 : GameState) (c : String),
      c ∈ (lines.foldl loadStep s0).all_countries ↔
        c ∈ s0.all_countries ∨ ∃ line ∈ lines, lineCountry line = some c := by
  induction lines with
  | nil => intro s0 c; simp
  | cons line rest ih =>
      intro s0 c
      rw [List.foldl_cons, ih]
      cases hl : lineCountry line with
      | none =>
          rw [loadStep_all_none s0 line hl]
          constructor
          · rintro (h | ⟨l, hlmem, hlc⟩)
            · exact Or.inl h
            · exact Or.inr ⟨l, List.mem_cons_of_mem _ hlmem, hlc⟩
          · rintro (h | ⟨l, hlmem, hlc⟩)
            · exact Or.inl h
            · rcases List.mem_cons.1 hlmem with rfl | hrest
              · rw [hl] at hlc
                exact absurd hlc (by simp)
              · exact Or.inr ⟨l, hrest, hlc⟩
      | some c0 =>
          rw [loadStep_all_some s0 line c0 hl, Finset.mem_insert]
          constructor
          · rintro ((rfl | h) | ⟨l, hlmem, hlc⟩)
            · exact Or.inr ⟨line, List.mem_cons_self _ _, hl⟩
            · exact Or.inl h
            · exact Or.inr ⟨l, List.mem_cons_of_mem _ hlmem, hlc⟩
          · rintro (h | ⟨l, hlmem, hlc⟩)
            · exact Or.inl (Or.inr h)
            · rcases List.mem_cons.1 hlmem with rfl | hrest
              · rw [hl] at hlc
                exact Or.inl (Or.inl (Option.some.inj hlc).symm)
              · exact Or.inr ⟨l, hrest, hlc⟩

theorem load_all_empty_iff (lines : List String) :
    (load_all_countries lines).all_countries = ∅ ↔
      ∀ line ∈ lines, lineCountry line = none := by
  rw [Finset.eq_empty_iff_forall_not_mem]
  constructor
  · intro h line hline
    cases hl : lineCountry line with
    | none => rfl
    | some c =>
        exact absurd ((mem_foldl_loadStep lines initState c).2
          (Or.inr ⟨line, hline, hl⟩)) (h c)
  · intro h c hc
    rcases (mem_foldl_loadStep lines initState c).1 hc with h0 | ⟨l, hl, hlc⟩
    · simp [initState] at h0
    · rw [h l hl] at hlc
      exact absurd hlc (by simp)

theorem consumeSeq_all (ops : List (String × String)) :
    ∀ s : GameState, (consumeSeq s ops).all_countries = s.all_countries ∧
      (consumeSeq s ops).invalid_countries = s.invalid_countries := by
  induction ops with
  | nil => exact fun s => ⟨rfl, rfl⟩
  | cons op rest ih => exact fun s => ih (consume s op.1 op.2)

theorem reset_all_consumeSeq (s : GameState) (ops : List (String × String)) :
    reset_all (consumeSeq s ops) = reset_all s := by
  have h := consumeSeq_all ops s
  unfold reset_all
  rw [h.1, h.2]

theorem play_loop_break (fuel : Nat) (s : GameState) (L : String) (a : Nat)
    (inputs : List String) (rands : List Nat) (r : MoveResult)
    (s1 : GameState) (inputs1 : List String)
    (hp : get_player_move s L a inputs = .ok (r, s1, inputs1))
    (hq : r.status = .QUIT ∨ r.status = .LOSE) (hnr : r.status ≠ .RESTART) :
    play_loop (fuel + 1) s L a inputs rands = .ok (some (r.status, s1)) := by
  simp only [play_loop, hp, hnr, hq, if_false, if_true, ite_false, ite_true]

/-! Claim theorems. -/

/-- A small concrete game state used to instantiate the claim theorems:
one country, `"italy"`, unseen in bucket `"i"`. -/
def sampleState : GameState :=
  { all_countries := {"italy"}
    unseen_countries := fun x => if x = "i" then {"italy"} else ∅
    invalid_countries := ∅ }

/-- C3: when a required letter is set (a one-character string) and its
unseen bucket is empty, `_get_player_move` returns `LOSE` at once: the
state it hands back is the unchanged input state and the modelled input
stream is returned whole, so no input was consumed and nothing was
mutated. -/
theorem c3_empty_bucket_auto_lose (s : GameState) (L : String) (a : Nat)
    (inputs : List String) (hL : L.length = 1)
    (hempty : s.unseen_countries L = ∅) :
    get_player_move s L a inputs = .ok (⟨.LOSE, none⟩, s, inputs) := by
  have hne : L ≠ "" := by
    intro h
    rw [h] at hL
    exact absurd hL (by decide)
  unfold get_player_move
  rw [if_neg (by omega), if_pos ⟨hne, hempty⟩]

/-- Witness for C3 at the state whose `"i"` bucket is empty. -/
theorem c3_empty_bucket_auto_lose_witness :
    get_player_move initState "i" MAX_INVALID_INPUTS ["italy"]
      = .ok (⟨.LOSE, none⟩, initState, ["italy"]) :=
  c3_empty_bucket_auto_lose initState "i" MAX_INVALID_INPUTS ["italy"]
    (by decide) rfl

/-- C8: on an empty (after `strip().lower()`) input the prompting loop of
`_get_player_move` decrements the attempts counter; if the decremented
counter is zero the resolution returns `LOSE` (the distinct
max-invalid-attempts exit of the loop), otherwise the loop re-prompts —
how the source realizes the RETRY transition of the spec — with the same
required letter and the decremented counter. -/
theorem c8_empty_input_decrements (s : GameState) (L raw : String) (a : Nat)
    (rest : List String) (h : pyLower (pyStrip raw) = "") :
    player_loop s L (a + 1) (raw :: rest)
      = if a = 0 then .ok (⟨.LOSE, none⟩, s, rest)
        else player_loop s L a rest := by
  have hq : pyLower (pyStrip raw) ≠ "quit" := by rw [h]; decide
  have hr : pyLower (pyStrip raw) ≠ "restart" := by rw [h]; decide
  rw [player_loop_skip s L raw a rest ⟨hq, hr, Or.inl h⟩]
  by_cases ha : a = 0
  · subst ha
    rw [if_pos rfl, player_loop_zero]
  · rw [if_neg ha]

/-- Witness for C8: one empty input with one attempt left loses. -/
theorem c8_empty_input_decrements_witness :
    player_loop sampleState "i" 1 [" "]
      = if 0 = 0 then .ok (⟨.LOSE, none⟩, sampleState, [])
        else player_loop sampleState "i" 0 [] :=
  c8_empty_input_decrements sampleState "i" " " 0 [] (by decide)

/-- C1: with the bucket of the required letter non-empty, empty inputs and
non-country inputs share one attempts budget seeded at
`MAX_INVALID_INPUTS = 3`: three such inputs in a row lose on the third
(consuming exactly those three), while two of them followed by a valid
name continue with that name consumed; the budget is per-call, and the
driver re-seeds every resolution call from `reset_game_state`, so the
streak after a CONTINUE again starts with the full budget. -/
theorem c1_shared_attempts_budget (s : GameState) (L : String)
    (hL : L.length = 1) (hbucket : s.unseen_countries L ≠ ∅)
    (b1 b2 b3 v : String) (rest : List String)
    (hb1 : invalidInput s b1) (hb2 : invalidInput s b2)
    (hb3 : invalidInput s b3)
    (hv1 : pyLower (pyStrip v) ∈ s.all_countries)
    (hv2 : pyLower (pyStrip v) ≠ "")
    (hv3 : pyFirst (pyLower (pyStrip v)) = L)
    (hv4 : pyLower (pyStrip v) ∈
      s.unseen_countries (pyFirst (pyLower (pyStrip v))))
    (hv5 : pyLower (pyStrip v) ≠ "quit")
    (hv6 : pyLower (pyStrip v) ≠ "restart") :
    get_player_move s L MAX_INVALID_INPUTS (b1 :: b2 :: b3 :: rest)
        = .ok (⟨.LOSE, none⟩, s, rest)
    ∧ get_player_move s L MAX_INVALID_INPUTS (b1 :: b2 :: v :: rest)
        = .ok (⟨.CONTINUE, some (pyLast (pyLower (pyStrip v)))⟩,
            consume s (pyFirst (pyLower (pyStrip v))) (pyLower (pyStrip v)),
            rest)
    ∧ reset_game_state = ("", MAX_INVALID_INPUTS)
    ∧ MAX_INVALID_INPUTS = 3 := by
  have hL1 : L.length ≤ 1 := by omega
  refine ⟨?_, ?_, rfl, rfl⟩
  · rw [get_player_move_eq_loop s L MAX_INVALID_INPUTS
      (b1 :: b2 :: b3 :: rest) hL1 (Or.inr hbucket)]
    have h3 : ∀ raw ∈ [b1, b2, b3], invalidInput s raw := by
      intro raw hraw
      simp only [List.mem_cons, List.not_mem_nil, or_false] at hraw
      rcases hraw with rfl | rfl | rfl
      · exact hb1
      · exact hb2
      · exact hb3
    exact (player_loop_invalid_streak s L 0 [b1, b2, b3] rest h3).trans
      (player_loop_zero s L rest)
  · rw [get_player_move_eq_loop s L MAX_INVALID_INPUTS
      (b1 :: b2 :: v :: rest) hL1 (Or.inr hbucket)]
    have h2 : ∀ raw ∈ [b1, b2], invalidInput s raw := by
      intro raw hraw
      simp only [List.mem_cons, List.not_mem_nil, or_false] at hraw
      rcases hraw with rfl | rfl
      · exact hb1
      · exact hb2
    exact (player_loop_invalid_streak s L 1 [b1, b2] (v :: rest) h2).trans
      (player_loop_valid s L v 0 rest hv5 hv6 hv2 hv1 (Or.inr hv3) hv4)

/-- Witness for C1: in the one-country state, `["", " ", "zzz"]` loses and
`["", "zzz", "Italy"]` continues. -/
theorem c1_shared_attempts_budget_witness :
    get_player_move sampleState "i" MAX_INVALID_INPUTS ["", " ", "zzz"]
        = .ok (⟨.LOSE, none⟩, sampleState, [])
    ∧ get_player_move sampleState "i" MAX_INVALID_INPUTS ["", " ", "Italy"]
        = .ok (⟨.CONTINUE, some (pyLast (pyLower (pyStrip "Italy")))⟩,
            consume sampleState (pyFirst (pyLower (pyStrip "Italy")))
              (pyLower (pyStrip "Italy")), [])
    ∧ reset_game_state = ("", MAX_INVALID_INPUTS)
    ∧ MAX_INVALID_INPUTS = 3 :=
  c1_shared_attempts_budget sampleState "i" (by decide)
    (by simp [sampleState]) "" " " "zzz" "Italy" []
    ⟨by decide, by decide, Or.inl (by decide)⟩
    ⟨by decide, by decide, Or.inl (by decide)⟩
    ⟨by decide, by decide, Or.inr (by simp [sampleState]; decide)⟩
    (by have h : pyLower (pyStrip "Italy") = "italy" := by decide
        rw [h]; simp [sampleState])
    (by decide)
    (by decide)
    (by have h : pyLower (pyStrip "Italy") = "italy" := by decide
        have h2 : pyFirst (pyLower (pyStrip "Italy")) = "i" := by decide
        rw [h2, h]; simp [sampleState])
    (by decide) (by decide)

/-- C2: `_get_computer_move` returns `RETRY` with no letter on an absent or
empty required letter; returns `WIN` with no letter and the state untouched
when the bucket of the letter is empty; and otherwise, for every random draw,
picks some member of the bucket, removes exactly that member from exactly
that bucket, and returns `CONTINUE` carrying the last character of the pick
(lowercased, as the source does) as the next required letter. -/
theorem c2_computer_move_resolution (rand : Nat) (s : GameState) :
    get_computer_move rand s none = .ok (⟨.RETRY, none⟩, s)
    ∧ get_computer_move rand s (some "") = .ok (⟨.RETRY, none⟩, s)
    ∧ (∀ l, l ≠ "" → s.unseen_countries l = ∅ →
        get_computer_move rand s (some l) = .ok (⟨.WIN, none⟩, s))
    ∧ (∀ l, l ≠ "" → s.unseen_countries l ≠ ∅ →
        ∃ c ∈ s.unseen_countries l,
          get_computer_move rand s (some l)
            = .ok (⟨.CONTINUE, some (pyLower (pyLast c))⟩,
                { s with unseen_countries := updateBucket s.unseen_countries l ((s.unseen_countries l).erase c) })) :=
  ⟨get_computer_move_absent rand s,
   get_computer_move_empty_letter rand s,
   fun l h1 h2 => get_computer_move_win rand s l h1 h2,
   fun l h1 h2 => get_computer_move_pick rand s l h1 h2⟩

/-- Witness for C2: in the one-country state the computer picks `"italy"`. -/
theorem c2_computer_move_resolution_witness :
    ∃ c ∈ sampleState.unseen_countries "i",
      get_computer_move 0 sampleState (some "i")
        = .ok (⟨.CONTINUE, some (pyLower (pyLast c))⟩,
            { sampleState with unseen_countries := updateBucket sampleState.unseen_countries "i" ((sampleState.unseen_countries "i").erase c) }) :=
  (c2_computer_move_resolution 0 sampleState).2.2.2 "i" (by decide)
    (by simp [sampleState])

/-- C4: after ingestion (`_load_all_countries` over any line list) the
bucket invariant holds, both move resolutions preserve it, and under it
every bucket is contained in the set of known countries whose first
character is the letter of the bucket, so no name can sit in two distinct
buckets. -/
theorem c4_partition_invariant :
    (∀ lines, BucketsInv (load_all_countries lines))
    ∧ (∀ s L a inputs r s1 rem, BucketsInv s →
        get_player_move s L a inputs = .ok (r, s1, rem) → BucketsInv s1)
    ∧ (∀ rand s letter r s1, BucketsInv s →
        get_computer_move rand s letter = .ok (r, s1) → BucketsInv s1)
    ∧ (∀ s, BucketsInv s → ∀ L, s.unseen_countries L ⊆
        s.all_countries.filter (fun c => pyFirst c = L))
    ∧ (∀ s, BucketsInv s → ∀ L1 L2 c, c ∈ s.unseen_countries L1 →
        c ∈ s.unseen_countries L2 → L1 = L2) :=
  ⟨bucketsInv_load,
   fun s L a inputs r s1 rem hs h => bucketsInv_player s L a inputs r s1 rem hs h,
   fun rand s letter r s1 hs h => bucketsInv_computer rand s letter r s1 hs h,
   fun s hs L c hc => Finset.mem_filter.2 ⟨(hs L c hc).1, (hs L c hc).2⟩,
   fun s hs L1 L2 c h1 h2 => ((hs L1 c h1).2.symm).trans (hs L2 c h2).2⟩

/-- Witness for C4: preservation applied to a concrete quit move from the
empty state. -/
theorem c4_partition_invariant_witness : BucketsInv initState :=
  c4_partition_invariant.2.1 initState "" 1 ["quit"] ⟨.QUIT, none⟩ initState
    [] bucketsInv_initState rfl

/-- C5: `_reset_all` after any sequence of consumptions yields the same
result as from the un-consumed state; the unseen partition of that result is
exactly the full per-first-letter partition of `all_countries`; and the
reset changes neither `all_countries` nor `invalid_countries`. -/
theorem c5_reset_roundtrip (s : GameState) (ops : List (String × String)) :
    reset_all (consumeSeq s ops) = reset_all s
    ∧ (∀ L, (reset_all s).unseen_countries L
        = s.all_countries.filter (fun c => pyFirst c = L))
    ∧ (reset_all s).all_countries = s.all_countries
    ∧ (reset_all s).invalid_countries = s.invalid_countries :=
  ⟨reset_all_consumeSeq s ops, reset_all_bucket s, rfl, rfl⟩

/-- C6: construction fails exactly when the source is missing (the
`FileNotFoundError` path) or when loading leaves `all_countries` empty
(the `ValueError` path); otherwise it succeeds with the loaded store; and
`all_countries` is empty precisely when every line is empty after
stripping or contains a forbidden separator. -/
theorem c6_construction_failure :
    mkCountryChainGame none = .error (.fileNotFound "countries file")
    ∧ (∀ lines, (load_all_countries lines).all_countries = ∅ →
        mkCountryChainGame (some lines)
          = .error (.valueError "No valid countries found in the file."))
    ∧ (∀ lines, (load_all_countries lines).all_countries ≠ ∅ →
        mkCountryChainGame (some lines) = .ok (load_all_countries lines))
    ∧ (∀ lines, (load_all_countries lines).all_countries = ∅ ↔
        ∀ line ∈ lines, pyStrip line = "" ∨
          ∃ sep ∈ FORBIDDEN_SEPARATORS,
            pyContainsChar (pyStrip line) sep = true) := by
  refine ⟨rfl, ?_, ?_, ?_⟩
  · intro lines h
    simp [mkCountryChainGame, h]
  · intro lines h
    simp [mkCountryChainGame, h]
  · intro lines
    rw [load_all_empty_iff lines]
    simp only [lineCountry_eq_none_iff]

/-- Witness for C6: a single-line source with `"Italy"` constructs the
loaded store. -/
theorem c6_construction_failure_witness :
    mkCountryChainGame (some ["Italy"]) = .ok (load_all_countries ["Italy"]) := by
  have hlc : lineCountry "Italy" = some "italy" := by decide
  have hmem : "italy" ∈ (load_all_countries ["Italy"]).all_countries :=
    (mem_foldl_loadStep ["Italy"] initState "italy").2
      (Or.inr ⟨"Italy", by simp, hlc⟩)
  exact c6_construction_failure.2.2.1 ["Italy"]
    (fun h => absurd (h ▸ hmem) (Finset.not_mem_empty "italy"))

/-- C7: a trimmed, lowercased `"quit"` input makes `_get_player_move`
return `QUIT` with the state returned exactly as passed (no mutation of
`all_countries`, the unseen partition or `invalid_countries`), and the
`play` driver loop then breaks at once with that same state, consulting
neither the remaining input nor the computer. -/
theorem c7_quit_ends_session (s : GameState) (L raw : String) (a fuel : Nat)
    (rest : List String) (rands : List Nat) (hL : L.length ≤ 1)
    (hbucket : L = "" ∨ s.unseen_countries L ≠ ∅) (ha : 0 < a)
    (hq : pyLower (pyStrip raw) = "quit") :
    get_player_move s L a (raw :: rest) = .ok (⟨.QUIT, none⟩, s, rest)
    ∧ play_loop (fuel + 1) s L a (raw :: rest) rands
        = .ok (some (.QUIT, s)) := by
  obtain ⟨a0, rfl⟩ : ∃ a0, a = a0 + 1 := ⟨a - 1, by omega⟩
  have h1 : get_player_move s L (a0 + 1) (raw :: rest)
      = .ok (⟨.QUIT, none⟩, s, rest) := by
    rw [get_player_move_eq_loop s L (a0 + 1) (raw :: rest) hL hbucket,
      player_loop_quit s L raw a0 rest hq]
  exact ⟨h1, play_loop_break fuel s L (a0 + 1) (raw :: rest) rands
    ⟨.QUIT, none⟩ s rest h1 (Or.inl rfl) (by decide)⟩

/-- Witness for C7 with a `" Quit "` input in the one-country state. -/
theorem c7_quit_ends_session_witness :
    get_player_move sampleState "i" MAX_INVALID_INPUTS [" Quit ", "Italy"]
      = .ok (⟨.QUIT, none⟩, sampleState, ["Italy"])
    ∧ play_loop (5 + 1) sampleState "i" MAX_INVALID_INPUTS
        [" Quit ", "Italy"] [0] = .ok (some (.QUIT, sampleState)) :=
  c7_quit_ends_session sampleState "i" " Quit " MAX_INVALID_INPUTS 5
    ["Italy"] [0] (by decide) (Or.inr (by simp [sampleState])) (by decide)
    (by decide)

/-- C9: neither move resolution can surface the `KeyError` of
`set.remove`: both remove a name from a bucket only after membership in
that bucket is established. -/
theorem c9_removals_total :
    (∀ s L a inputs, get_player_move s L a inputs ≠ .error .keyError)
    ∧ (∀ rand s letter, get_computer_move rand s letter ≠ .error .keyError) := by
  refine ⟨fun s L a inputs h => ?_,
    fun rand s letter h => get_computer_move_no_error rand s letter .keyError h⟩
  rcases get_player_move_error s L a inputs .keyError h with h1 | h1
  · exact GameError.noConfusion h1
  · exact GameError.noConfusion h1

/-- Witness for C9 at concrete calls. -/
theorem c9_removals_total_witness :
    get_player_move sampleState "i" MAX_INVALID_INPUTS ["Italy"]
        ≠ .error .keyError
    ∧ get_computer_move 0 sampleState (some "i") ≠ .error .keyError :=
  ⟨c9_removals_total.1 sampleState "i" MAX_INVALID_INPUTS ["Italy"],
   c9_removals_total.2 0 sampleState (some "i")⟩

/-- C10: a required letter longer than one character makes
`_get_player_move` fail with the `ValueError` immediately — the result is
the same for every input stream and no state is returned — while for
letters of length zero or one the call never produces a `ValueError`. -/
theorem c10_length_guard :
    (∀ s L a inputs, L.length > 1 →
        get_player_move s L a inputs
          = .error (.valueError
              "The last character cannot be more than 1 character long"))
    ∧ (∀ s L a inputs m, L.length ≤ 1 →
        get_player_move s L a inputs ≠ .error (.valueError m)) := by
  constructor
  · intro s L a inputs h
    unfold get_player_move
    rw [if_pos h]
  · intro s L a inputs m hL h
    unfold get_player_move at h
    rw [if_neg (by omega)] at h
    by_cases h2 : L ≠ "" ∧ s.unseen_countries L = ∅
    · rw [if_pos h2] at h
      exact Except.noConfusion h
    · rw [if_neg h2] at h
      exact GameError.noConfusion (player_loop_error s L a inputs _ h)

/-- Witness for C10: `"ab"` raises, `"i"` does not. -/
theorem c10_length_guard_witness :
    get_player_move sampleState "ab" MAX_INVALID_INPUTS []
        = .error (.valueError
            "The last character cannot be more than 1 character long")
    ∧ get_player_move sampleState "i" MAX_INVALID_INPUTS ["Italy"]
        ≠ .error (.valueError
            "The last character cannot be more than 1 character long") :=
  ⟨c10_length_guard.1 sampleState "ab" MAX_INVALID_INPUTS [] (by decide),
   c10_length_guard.2 sampleState "i" MAX_INVALID_INPUTS ["Italy"] _
     (by decide)⟩

end CountryGame
